import Mathlib

/-!
Verification of the RustyScheme runtime core (src/value.rs, src/bytecode.rs)
against its natural-language specification.

The model fixes the 64-bit configuration (`target_pointer_width = "64"`),
so a machine word is a natural number below 2^64 and `usize` bit operations
are `Nat` bit operations; where a theorem needs the word to be a genuine
machine word, it carries an explicit bound or alignment hypothesis.

Memory is modelled as a function from byte addresses to the machine word
stored at that address; heap accessors take the memory explicitly, and
mutators return the updated memory.
-/

/-- Tag of fixnums (value.rs `NUM_TAG`). -/
def NUM_TAG : Nat := 0b000

/-- Tag of Rust-implemented functions (value.rs `RUST_FUNC_TAG`). -/
def RUST_FUNC_TAG : Nat := 0b001

/-- Tag of Scheme-implemented functions (value.rs `FUNCTION_TAG`). -/
def FUNCTION_TAG : Nat := 0b010

/-- Tag of vectors, records and closures (value.rs `VECTOR_TAG`). -/
def VECTOR_TAG : Nat := 0b011

/-- Tag of non-fixnum immediates (value.rs `NUM_TAG_2`). -/
def NUM_TAG_2 : Nat := 0b100

/-- Tag of Rust data on the Scheme heap (value.rs `RUST_DATA_TAG`). -/
def RUST_DATA_TAG : Nat := 0b101

/-- Tag of symbols (value.rs `SYMBOL_TAG`). -/
def SYMBOL_TAG : Nat := 0b110

/-- Tag of pairs (value.rs `PAIR_TAG`). -/
def PAIR_TAG : Nat := 0b111

/-- Size of a pointer on the modelled 64-bit target (value.rs `SIZEOF_PTR`). -/
def SIZEOF_PTR : Nat := 8

/-- Memory occupied by a pair, in words (value.rs `SIZEOF_PAIR`). -/
def SIZEOF_PAIR : Nat := (3 * SIZEOF_PTR + 0b111) >>> 3

/-- Bitmask of the tag bits of an object header (value.rs `HEADER_TAG`). -/
def HEADER_TAG : Nat := 0b111 <<< (SIZEOF_PTR * 8 - 3)

/-- Header of a pair (value.rs `PAIR_HEADER`). -/
def PAIR_HEADER : Nat := HEADER_TAG ||| SIZEOF_PAIR

/-- Header of a vector (value.rs `VECTOR_HEADER`). -/
def VECTOR_HEADER : Nat := 0

/-- The symbolic tags (value.rs `enum Tags`). -/
inductive Tags
  | Num
  | RustFunc
  | Function
  | Vector
  | Num2
  | RustData
  | Symbol
  | Pair
deriving DecidableEq, Repr

/-- A Scheme value: a single machine word (value.rs `struct Value`).
The interior-mutable `Cell<usize>` is modelled by passing memory and
updated values explicitly. -/
structure Value where
  contents : Nat
deriving DecidableEq, Repr

/-- value.rs `Value::new`. -/
def Value.new (contents : Nat) : Value := ⟨contents⟩

/-- value.rs `Value::get`. -/
def Value.get (v : Value) : Nat := v.contents

/-- value.rs `Value::raw_tag`: the bottom 3 bits of the word. -/
def Value.raw_tag (v : Value) : Nat := v.get &&& 0b111

/-- value.rs `Value::tag`.  The source matches the raw tag against the 8
tag constants, with an unreachable wildcard arm; since `raw_tag` is below 8,
the final wildcard here is exactly the `PAIR_TAG` arm. -/
def Value.tag (v : Value) : Tags :=
  match v.raw_tag with
  | 0 => Tags.Num
  | 1 => Tags.RustFunc
  | 2 => Tags.Function
  | 3 => Tags.Vector
  | 4 => Tags.Num2
  | 5 => Tags.RustData
  | 6 => Tags.Symbol
  | _ => Tags.Pair

/-- value.rs `Value::leafp`. -/
def Value.leafp (v : Value) : Bool := v.raw_tag &&& 0b11 != 0b11

/-- value.rs `Value::both_fixnums`. -/
def Value.both_fixnums (v other : Value) : Bool := (v.get ||| other.get) &&& 0b11 == 0

/-- value.rs `Value::self_evaluating`. -/
def Value.self_evaluating (v : Value) : Bool := v.raw_tag < 6

/-- value.rs `Value::fixnump`. -/
def Value.fixnump (v : Value) : Bool := v.raw_tag &&& 0b11 == 0

/-- value.rs `Value::pairp`. -/
def Value.pairp (v : Value) : Bool := v.tag == Tags.Pair

/-- value.rs `enum Kind`.  The raw pointers are modelled as byte addresses. -/
inductive Kind
  | Pair (addr : Nat)
  | Vector (addr : Nat)
  | Fixnum (val : Nat)
deriving DecidableEq, Repr

/-- value.rs macro `Ptr_Val!`: `contents & !0b111`.  On the 64-bit target
the mask `!0b111` is `2^64 - 8`. -/
def Ptr_Val (v : Value) : Nat := v.contents &&& (2 ^ 64 - 8)

/-- value.rs `Value::kind`.  The source arm for the remaining tags
(RustFunc, Function, RustData, Symbol) is `unimplemented!()`, which panics;
a panic is modelled as `none`. -/
def Value.kind (v : Value) : Option Kind :=
  match v.tag with
  | Tags.Pair => some (Kind.Pair (Ptr_Val v))
  | Tags.Vector => some (Kind.Vector (Ptr_Val v))
  | Tags.Num => some (Kind.Fixnum (v.contents >>> 2))
  | Tags.Num2 => some (Kind.Fixnum (v.contents >>> 2))
  | _ => none

/-- value.rs `Value::as_fixnum`. -/
def Value.as_fixnum (v : Value) : Option (Except String Nat) :=
  match v.kind with
  | some (Kind.Fixnum val) => some (Except.ok val)
  | some _ => some (Except.error "not a fixnum")
  | none => none

/-- Memory: a map from a byte address to the machine word stored there. -/
def Mem : Type := Nat → Nat

/-- value.rs `Value::car`.  A pair is `#[repr(C)] { header, car, cdr }`,
so the car slot lives one word after the header.  The outer `Option` is
`none` when `kind` panics; the `Except` is the `Result<_, ()>` of the source. -/
def Value.car (mem : Mem) (v : Value) : Option (Except Unit Value) :=
  match v.kind with
  | some (Kind.Pair p) => some (Except.ok ⟨mem (p + SIZEOF_PTR)⟩)
  | some _ => some (Except.error ())
  | none => none

/-- value.rs `Value::cdr`: the cdr slot lives two words after the header. -/
def Value.cdr (mem : Mem) (v : Value) : Option (Except Unit Value) :=
  match v.kind with
  | some (Kind.Pair p) => some (Except.ok ⟨mem (p + 2 * SIZEOF_PTR)⟩)
  | some _ => some (Except.error ())
  | none => none

/-- value.rs `Value::set_car`: stores into the car slot of the pair. -/
def Value.set_car (mem : Mem) (v : Value) (other : Value) : Option (Except Unit Mem) :=
  match v.kind with
  | some (Kind.Pair p) =>
      some (Except.ok (fun a => if a = p + SIZEOF_PTR then other.contents else mem a))
  | some _ => some (Except.error ())
  | none => none

/-- value.rs `Value::set_cdr`: stores into the cdr slot of the pair. -/
def Value.set_cdr (mem : Mem) (v : Value) (other : Value) : Option (Except Unit Mem) :=
  match v.kind with
  | some (Kind.Pair p) =>
      some (Except.ok (fun a => if a = p + 2 * SIZEOF_PTR then other.contents else mem a))
  | some _ => some (Except.error ())
  | none => none

/-- The three distinct `String` error messages of value.rs `array_get` and
`array_set`: the index-out-of-bounds message, the non-vector message and
the non-record message. -/
inductive ArrayError
  | indexOutOfBounds
  | nonVector
  | nonRecord
deriving DecidableEq, Repr

/-- value.rs `Value::array_get`.  Mirrors the source exactly: the guard is
`(*vec).header >= index` (the full header word, tag bits included), the
error message is chosen by `header & HEADER_TAG == 0`, and the returned
pointer is the byte address `vec as usize + index`. -/
def Value.array_get (mem : Mem) (v : Value) (index : Nat) : Option (Except ArrayError Nat) :=
  match v.kind with
  | some (Kind.Vector vec) =>
      if mem vec ≥ index then
        some (Except.error
          (if (mem vec) &&& HEADER_TAG = 0 then ArrayError.indexOutOfBounds
           else ArrayError.nonRecord))
      else
        some (Except.ok (vec + index))
  | some _ => some (Except.error ArrayError.nonVector)
  | none => none

/-- value.rs `Value::array_set`: same guard as `array_get`; on success the
word at byte address `vec + index` is overwritten. -/
def Value.array_set (mem : Mem) (v : Value) (index : Nat) (other : Value) :
    Option (Except ArrayError Mem) :=
  match v.kind with
  | some (Kind.Vector vec) =>
      if mem vec ≥ index then
        some (Except.error
          (if (mem vec) &&& HEADER_TAG = 0 then ArrayError.indexOutOfBounds
           else ArrayError.nonRecord))
      else
        some (Except.ok (fun a => if a = vec + index then other.contents else mem a))
  | some _ => some (Except.error ArrayError.nonVector)
  | none => none

/-- Modelled from the spec: the fixnum encoding.  The source has no fixnum
constructor; per the spec the payload is a signed integer shifted left
by 2, truncated to the machine word (two-complement). -/
def fixnum_encode (n : Int) : Value := ⟨(n * 4 % (2 ^ 64 : Int)).toNat⟩

/-- Modelled from the spec: a freshly built pair.  The allocator is not in
the given sources; per the spec a pair is a header word followed by the car
and cdr slots, at an 8-byte-aligned address. -/
def mkPairMem (p : Nat) (a b : Value) : Mem :=
  fun addr =>
    if addr = p then PAIR_HEADER
    else if addr = p + SIZEOF_PTR then a.contents
    else if addr = p + 2 * SIZEOF_PTR then b.contents
    else 0

/-- The tagged value referencing a pair allocated at byte address `p`. -/
def pairValue (p : Nat) : Value := ⟨p ||| PAIR_TAG⟩

/-- The opcodes (bytecode.rs `enum Opcode`), in source order. -/
inductive Opcode
  | Cons
  | Car
  | Cdr
  | SetCar
  | SetCdr
  | IsPair
  | Add
  | Subtract
  | Multiply
  | Divide
  | Power
  | MakeArray
  | SetArray
  | GetArray
  | IsArray
  | ArrayLen
  | Call
  | TailCall
  | Return
  | Closure
  | Set
  | LoadConstant
  | LoadEnvironment
  | LoadArgument
  | LoadGlobal
  | LoadFalse
  | LoadTrue
  | LoadNil
  | StoreEnvironment
  | StoreArgument
  | StoreGlobal
deriving DecidableEq, Repr

/-- A decoded instruction (bytecode.rs `struct Bytecode`); the `u8` operand
fields are modelled as naturals. -/
structure Bytecode where
  opcode : Opcode
  src : Nat
  src2 : Nat
  dst : Nat
deriving DecidableEq, Repr

/-- Verifier diagnostics (bytecode.rs `enum BadByteCode`), extended with the
argument-range error the spec requires alongside the two declared variants. -/
inductive BadByteCode
  | StackUnderflow (index depth min : Nat)
  | EnvOutOfRange (index required_length actual_length : Nat)
  | ArgOutOfRange (index required_length actual_length : Nat)
deriving DecidableEq, Repr

/-- Modelled from the spec: the stack-relative operand depths an instruction
reads, per the opcode table of the spec.  The source `verify_bytecodes` is
excluded from compilation by `#[cfg(none)]` and is not compilable (its
macros use undefined variables and it matches nonexistent opcode variants),
so the verifier is modelled from the spec. -/
def stackReads (b : Bytecode) : List Nat :=
  match b.opcode with
  | Opcode.Cons => [b.src, b.src2]
  | Opcode.Car | Opcode.Cdr => [b.src]
  | Opcode.SetCar | Opcode.SetCdr => [b.src, b.src2]
  | Opcode.IsPair => [b.src]
  | Opcode.Add | Opcode.Subtract | Opcode.Multiply | Opcode.Divide | Opcode.Power => [0, 1]
  | Opcode.MakeArray => []
  | Opcode.SetArray | Opcode.GetArray => [b.src, b.src2]
  | Opcode.IsArray | Opcode.ArrayLen => [b.src]
  | Opcode.Call | Opcode.TailCall => [b.src]
  | Opcode.Return => [0]
  | Opcode.Closure => [b.src]
  | Opcode.Set => [b.src, b.dst]
  | Opcode.LoadConstant | Opcode.LoadEnvironment | Opcode.LoadArgument
  | Opcode.LoadGlobal | Opcode.LoadFalse | Opcode.LoadTrue | Opcode.LoadNil => []
  | Opcode.StoreEnvironment => [b.src]
  | Opcode.StoreArgument => []
  | Opcode.StoreGlobal => []

/-- Modelled from the spec: the argument-relative operand indices an
instruction reads. -/
def argReads (b : Bytecode) : List Nat :=
  match b.opcode with
  | Opcode.LoadArgument => [b.src]
  | Opcode.StoreArgument => [b.src]
  | _ => []

/-- Modelled from the spec: the environment-relative operand indices an
instruction reads (`LoadEnvironment` reads slot `src`; `StoreEnvironment`
stores to slot `dst`). -/
def envReads (b : Bytecode) : List Nat :=
  match b.opcode with
  | Opcode.LoadEnvironment => [b.src]
  | Opcode.StoreEnvironment => [b.dst]
  | _ => []

/-- Modelled from the spec: the net effect of an instruction on the tracked
operand-stack depth (push is +1, pop is -1), per the opcode table. -/
def depthEffect (b : Bytecode) : Int :=
  match b.opcode with
  | Opcode.Cons => 1 - (b.dst : Int)
  | Opcode.Car | Opcode.Cdr => 1
  | Opcode.SetCar | Opcode.SetCdr => 0
  | Opcode.IsPair => 1
  | Opcode.Add | Opcode.Subtract | Opcode.Multiply | Opcode.Divide | Opcode.Power => -1
  | Opcode.MakeArray => 1
  | Opcode.SetArray => -1
  | Opcode.GetArray => 1
  | Opcode.IsArray | Opcode.ArrayLen => 1
  | Opcode.Call | Opcode.TailCall | Opcode.Return => 0
  | Opcode.Closure => 1
  | Opcode.Set => 0
  | Opcode.LoadConstant | Opcode.LoadEnvironment | Opcode.LoadArgument
  | Opcode.LoadGlobal | Opcode.LoadFalse | Opcode.LoadTrue | Opcode.LoadNil => 1
  | Opcode.StoreEnvironment | Opcode.StoreArgument | Opcode.StoreGlobal => 0

/-- Modelled from the spec: the per-instruction checks of the verifier, in
the order the spec gives them (stack-relative, then argument-relative, then
environment-relative); `i` is the 0-based position of the instruction and
`depth` the tracked depth on entry to it. -/
def checkInstr (argcount environment_length i depth : Nat) (b : Bytecode) :
    Option BadByteCode :=
  match (stackReads b).find? (fun d => decide (depth ≤ d)) with
  | some d => some (BadByteCode.StackUnderflow i depth (d + 1))
  | none =>
    match (argReads b).find? (fun a => decide (argcount ≤ a)) with
    | some a => some (BadByteCode.ArgOutOfRange i (a + 1) argcount)
    | none =>
      match (envReads b).find? (fun e => decide (environment_length ≤ e)) with
      | some e => some (BadByteCode.EnvOutOfRange i (e + 1) environment_length)
      | none => none

/-- Modelled from the spec: the forward linear scan of the verifier from
instruction position `i` at tracked depth `depth`; on success it returns
the final depth. -/
def verifyFrom (argcount environment_length : Nat) :
    List Bytecode → Nat → Nat → Except BadByteCode Nat
  | [], _, depth => Except.ok depth
  | b :: rest, i, depth =>
    match checkInstr argcount environment_length i depth b with
    | some e => Except.error e
    | none => verifyFrom argcount environment_length rest (i + 1) (depth + depthEffect b).toNat

/-- Modelled from the spec: the bytecode verifier.  The vararg flag is an
input of the pass but conditions none of the specified checks. -/
def verify_bytecodes (b : List Bytecode) (argcount : Nat) (_v : Bool)
    (environment_length : Nat) : Except BadByteCode Nat :=
  verifyFrom argcount environment_length b 0 0

/-- Size in bytes of the sized prelude of a BCO (bytecode.rs `struct BCO`:
header word, bytecode-length word, constants-vector word), i.e. the source
`size_of!(BCO)`. -/
def SIZEOF_BCO : Nat := 3 * SIZEOF_PTR

/-- The heap collaborator as far as `allocate_bytecode` observes it: the
explicit value stack. -/
structure Heap where
  stack : List Value
deriving DecidableEq, Repr

/-- The observable outcome of bytecode.rs `allocate_bytecode`: the words and
bytes written into the fresh allocation, given as (byte offset, content)
from the allocation base, plus the resulting value stack. -/
structure BCOResult where
  /-- The word count requested from `alloc_raw`. -/
  size_words : Nat
  /-- The value stored in the `bytecode_length` field. -/
  bytecode_length : Nat
  /-- Byte offset of the `bytecode_length` field (second word of the struct). -/
  bytecode_length_offset : Nat
  /-- The constants-vector reference popped from the stack and stored. -/
  constants_vector : Value
  /-- Byte offset at which the constants reference is stored: the
  `constants_vector` field, the third word of the struct. -/
  constants_offset : Nat
  /-- Byte offset at which the code bytes start: `size_of!(BCO)`. -/
  code_offset : Nat
  /-- The code bytes copied verbatim. -/
  code : List Nat
  /-- The value stack after the call. -/
  stack : List Value
deriving DecidableEq, Repr

/-- bytecode.rs `allocate_bytecode`, given the code bytes `obj`, the heap
and the base address `val` returned by `alloc_raw`.  The source pops the
constants vector with `heap.stack.pop().unwrap()`, which panics on an empty
stack; the panic is modelled as `none`. -/
def allocate_bytecode (obj : List Nat) (heap : Heap) (val : Nat) : Option BCOResult :=
  match heap.stack with
  | [] => none
  | consts :: rest =>
    some ⟨(SIZEOF_BCO + obj.length + (SIZEOF_PTR - 1)) / SIZEOF_PTR,
          obj.length,
          SIZEOF_PTR,
          consts,
          2 * SIZEOF_PTR,
          SIZEOF_BCO,
          obj,
          Value.new (val ||| RUST_DATA_TAG) :: rest⟩

/-- The byte offset of the word immediately following the word-padded code
region of a BCO holding `k` code bytes, where the code bytes start at byte
offset `start`: this is where the spec places the constants reference. -/
def word_after_code (start k : Nat) : Nat := (start + k + (SIZEOF_PTR - 1)) / SIZEOF_PTR * SIZEOF_PTR

/-- Masking with `0b111` is reduction modulo 8. -/
theorem and_seven_eq_mod (x : Nat) : x &&& 7 = x % 8 := by
  have h := Nat.and_pow_two_sub_one_eq_mod x 3
  norm_num at h
  exact h

/-- Masking with `0b11` is reduction modulo 4. -/
theorem and_three_eq_mod (x : Nat) : x &&& 3 = x % 4 := by
  have h := Nat.and_pow_two_sub_one_eq_mod x 2
  norm_num at h
  exact h

/-- A bitwise or vanishes exactly when both operands vanish. -/
theorem or_eq_zero (x y : Nat) : (x ||| y) = 0 ↔ x = 0 ∧ y = 0 := by
  constructor
  · intro h
    have hx : ∀ z w : Nat, (z ||| w) = 0 → z = 0 := by
      intro z w hzw
      apply Nat.eq_of_testBit_eq
      intro i
      have hb : (z ||| w).testBit i = false := by rw [hzw]; exact Nat.zero_testBit i
      rw [Nat.testBit_or] at hb
      rw [Nat.zero_testBit]
      exact (Bool.or_eq_false_iff.mp hb).1
    exact ⟨hx x y h, hx y x (by rwa [Nat.or_comm] at h)⟩
  · rintro ⟨rfl, rfl⟩
    rfl

/-- The fixnum test in terms of the raw word: true iff the low 2 bits are 0. -/
theorem fixnump_iff (v : Value) : v.fixnump = true ↔ v.contents &&& 3 = 0 := by
  have h73 : (7 : Nat) &&& 3 = 3 := rfl
  unfold Value.fixnump Value.raw_tag Value.get
  rw [beq_iff_eq, Nat.and_assoc, h73]

/-- C8: `both_fixnums(a, b)` is true if and only if `fixnump(a)` and
`fixnump(b)` are both true, for all values (hence in particular for all
8 by 8 combinations of tag patterns), where `fixnump` is true exactly when
the low 2 bits of the value are `0b00`. -/
theorem C8_both_fixnums (a b : Value) :
    (Value.both_fixnums a b = true ↔ (a.fixnump = true ∧ b.fixnump = true)) ∧
    (a.fixnump = true ↔ a.contents &&& 3 = 0) := by
  constructor
  · rw [fixnump_iff a, fixnump_iff b]
    unfold Value.both_fixnums Value.get
    rw [beq_iff_eq, Nat.and_distrib_right, or_eq_zero]
  · exact fixnump_iff a

/-- C10: every value whose low three bits are `0b100` is classified by
`kind()` as a fixnum with payload the word logically shifted right by 2,
and `as_fixnum` succeeds on it with that payload; moreover `as_fixnum`
succeeds on every value whose low two bits are zero. -/
theorem C10_num2_is_fixnum (v : Value) :
    (v.contents &&& 7 = 4 →
      v.kind = some (Kind.Fixnum (v.contents >>> 2)) ∧
      v.as_fixnum = some (Except.ok (v.contents >>> 2))) ∧
    (v.contents &&& 3 = 0 →
      v.as_fixnum = some (Except.ok (v.contents >>> 2))) := by
  constructor
  · intro h
    have ht : v.tag = Tags.Num2 := by
      unfold Value.tag Value.raw_tag Value.get
      rw [h]
    exact ⟨by simp [Value.kind, ht], by simp [Value.as_fixnum, Value.kind, ht]⟩
  · intro h
    have h8 : v.contents % 8 = 0 ∨ v.contents % 8 = 4 := by
      have h4 : v.contents % 4 = 0 := by rw [← and_three_eq_mod]; exact h
      omega
    have h7 : v.contents &&& 7 = 0 ∨ v.contents &&& 7 = 4 := by
      rw [and_seven_eq_mod]; exact h8
    rcases h7 with h7 | h7
    · have ht : v.tag = Tags.Num := by
        unfold Value.tag Value.raw_tag Value.get
        rw [h7]
      simp [Value.as_fixnum, Value.kind, ht]
    · have ht : v.tag = Tags.Num2 := by
        unfold Value.tag Value.raw_tag Value.get
        rw [h7]
      simp [Value.as_fixnum, Value.kind, ht]

/-- C10 witness: the value `0b100` is classified as the fixnum 1. -/
theorem C10_witness :
    Value.kind ⟨4⟩ = some (Kind.Fixnum 1) ∧
    Value.as_fixnum ⟨4⟩ = some (Except.ok 1) :=
  (C10_num2_is_fixnum ⟨4⟩).1 rfl

/-- C9: for every input byte list and heap on which `allocate_bytecode`
completes, and every word-aligned allocation base, the value pushed as the
reference to the new bytecode object is the base or-ed with `RUST_DATA_TAG`
(raw tag 0b101), and `tag()` on it returns the `RustData` kind. -/
theorem C9_pushed_tag_is_rustdata (obj : List Nat) (heap : Heap) (val : Nat)
    (res : BCOResult) (hval : val % 8 = 0)
    (h : allocate_bytecode obj heap val = some res) :
    res.stack.head? = some (Value.new (val ||| RUST_DATA_TAG)) ∧
    (Value.new (val ||| RUST_DATA_TAG)).raw_tag = RUST_DATA_TAG ∧
    (Value.new (val ||| RUST_DATA_TAG)).tag = Tags.RustData := by
  have hraw : (Value.new (val ||| RUST_DATA_TAG)).raw_tag = 5 := by
    unfold Value.new Value.raw_tag Value.get RUST_DATA_TAG
    rw [Nat.and_distrib_right, and_seven_eq_mod, and_seven_eq_mod, hval]
    rfl
  refine ⟨?_, hraw, ?_⟩
  · rcases heap with ⟨stack⟩
    cases stack with
    | nil => simp [allocate_bytecode] at h
    | cons c rest =>
      simp only [allocate_bytecode] at h
      rw [Option.some.injEq] at h
      rw [← h]
      rfl
  · unfold Value.tag
    rw [hraw]

/-- C9 witness: a concrete run with an empty code body, stack `[0]`, and
base address 8 pushes the word 13 = 8 or 0b101, whose tag is RustData. -/
theorem C9_witness :
    (⟨3, 0, 8, ⟨0⟩, 16, 24, [], [⟨13⟩]⟩ : BCOResult).stack.head? =
      some (Value.new (8 ||| RUST_DATA_TAG)) ∧
    (Value.new (8 ||| RUST_DATA_TAG)).raw_tag = RUST_DATA_TAG ∧
    (Value.new (8 ||| RUST_DATA_TAG)).tag = Tags.RustData :=
  C9_pushed_tag_is_rustdata [] ⟨[⟨0⟩]⟩ 8 ⟨3, 0, 8, ⟨0⟩, 16, 24, [], [⟨13⟩]⟩ rfl rfl

/-- C5 counterexample: the fixnum-encoded value of -1 decodes through
`kind()`/`as_fixnum` to the unsigned word 2^62 - 1, not to -1: `as_fixnum`
performs a logical right shift and returns an unsigned machine word, so the
negative encodings are not recovered exactly. -/
theorem C5_counterexample :
    Value.as_fixnum (fixnum_encode (-1)) = some (Except.ok 4611686018427387903) ∧
    ((4611686018427387903 : Int) ≠ (-1 : Int)) := by
  constructor
  · rfl
  · decide

/-- C5 amended: for every signed integer in the 62-bit payload range,
decoding the fixnum-encoded value via `kind()`/`as_fixnum` returns the
payload reduced modulo 2^62 as an unsigned word; this recovers exactly the
encoded integer whenever it is nonnegative (negative integers come back as
their unsigned two-complement payload, per the counterexample). -/
theorem C5_fixnum_roundtrip (n : Int) (h1 : -(2 ^ 61) ≤ n) (h2 : n < 2 ^ 61) :
    Value.as_fixnum (fixnum_encode n) = some (Except.ok (n % (2 ^ 62 : Int)).toNat) ∧
    (0 ≤ n → ((n % (2 ^ 62 : Int)).toNat : Int) = n) := by
  have hmn : (((n % (2 ^ 62 : Int)).toNat : Int)) = n % 2 ^ 62 :=
    Int.toNat_of_nonneg (Int.emod_nonneg n (by norm_num))
  constructor
  · have henc : (n * 4 % (2 ^ 64 : Int)) = 4 * ((n % (2 ^ 62 : Int)).toNat : Int) := by
      have h64 : (2 ^ 64 : Int) = 4 * 2 ^ 62 := by norm_num
      rw [h64, Int.mul_comm n 4, Int.mul_emod_mul_of_pos _ _ (by norm_num : (0 : Int) < 4), hmn]
    have hcontents : fixnum_encode n = ⟨4 * (n % (2 ^ 62 : Int)).toNat⟩ := by
      unfold fixnum_encode
      rw [henc]
      have hc : (4 : Int) * ((n % (2 ^ 62 : Int)).toNat : Int) =
          ((4 * (n % (2 ^ 62 : Int)).toNat : Nat) : Int) := by push_cast; ring
      rw [hc, Int.toNat_natCast]
    rw [hcontents]
    have hshift : (4 * (n % (2 ^ 62 : Int)).toNat) >>> 2 = (n % (2 ^ 62 : Int)).toNat := by
      rw [Nat.shiftRight_eq_div_pow]
      omega
    have h8 : (4 * (n % (2 ^ 62 : Int)).toNat) % 8 = 0 ∨
        (4 * (n % (2 ^ 62 : Int)).toNat) % 8 = 4 := by omega
    rcases h8 with h8 | h8
    · have ht : Value.tag ⟨4 * (n % (2 ^ 62 : Int)).toNat⟩ = Tags.Num := by
        unfold Value.tag Value.raw_tag Value.get
        rw [and_seven_eq_mod]
        rw [h8]
      have hk : Value.kind ⟨4 * (n % (2 ^ 62 : Int)).toNat⟩ =
          some (Kind.Fixnum ((4 * (n % (2 ^ 62 : Int)).toNat) >>> 2)) := by
        unfold Value.kind
        rw [ht]
      unfold Value.as_fixnum
      rw [hk, hshift]
    · have ht : Value.tag ⟨4 * (n % (2 ^ 62 : Int)).toNat⟩ = Tags.Num2 := by
        unfold Value.tag Value.raw_tag Value.get
        rw [and_seven_eq_mod]
        rw [h8]
      have hk : Value.kind ⟨4 * (n % (2 ^ 62 : Int)).toNat⟩ =
          some (Kind.Fixnum ((4 * (n % (2 ^ 62 : Int)).toNat) >>> 2)) := by
        unfold Value.kind
        rw [ht]
      unfold Value.as_fixnum
      rw [hk, hshift]
  · intro h0
    rw [hmn]
    exact Int.emod_eq_of_lt h0 (by omega)

/-- C5 witness: the fixnum encoding of 3 decodes back to 3. -/
theorem C5_witness :
    Value.as_fixnum (fixnum_encode 3) = some (Except.ok ((3 : Int) % (2 ^ 62 : Int)).toNat) ∧
    (0 ≤ (3 : Int) → (((3 : Int) % (2 ^ 62 : Int)).toNat : Int) = 3) :=
  C5_fixnum_roundtrip 3 (by norm_num) (by norm_num)

/-- C2: the verifier on the single instruction `[Car]` with argcount 0,
no vararg and environment length 0 fails with StackUnderflow carrying
index 0, depth 0 and min 1; in general, whenever the verifier reaches an
instruction at position `i` with tracked depth `depth` and the instruction
reads a stack-relative operand at depth `d` with `depth ≤ d` (`d` being the
first such offending operand), verification fails with
`StackUnderflow{index := i, depth, min := d + 1}`. -/
theorem C2_stack_underflow :
    verify_bytecodes [⟨Opcode.Car, 0, 0, 0⟩] 0 false 0 =
      Except.error (BadByteCode.StackUnderflow 0 0 1) ∧
    ∀ (argc envLen : Nat) (b : Bytecode) (rest : List Bytecode) (i depth d : Nat),
      (stackReads b).find? (fun x => decide (depth ≤ x)) = some d →
      verifyFrom argc envLen (b :: rest) i depth =
        Except.error (BadByteCode.StackUnderflow i depth (d + 1)) := by
  constructor
  · rfl
  · intro argc envLen b rest i depth d h
    unfold verifyFrom checkInstr
    rw [h]

/-- C2 witness: a `Car` reading stack depth 2 at tracked depth 1, at
instruction position 7, fails with StackUnderflow{7, 1, 3}. -/
theorem C2_witness :
    verifyFrom 0 0 [⟨Opcode.Car, 2, 0, 0⟩] 7 1 =
      Except.error (BadByteCode.StackUnderflow 7 1 3) :=
  C2_stack_underflow.2 0 0 ⟨Opcode.Car, 2, 0, 0⟩ [] 7 1 2 rfl

/-- C3: the verifier on `[LoadEnvironment src=2]` with environment length 1
fails with EnvOutOfRange carrying index 0, required length 3 and actual
length 1; in general, whenever the verifier reaches an instruction whose
stack and argument checks pass and which reads an environment-relative
operand at index `e` with `environment_length ≤ e`, verification fails with
`EnvOutOfRange{index, required_length := e + 1, actual_length}`. -/
theorem C3_env_out_of_range :
    verify_bytecodes [⟨Opcode.LoadEnvironment, 2, 0, 0⟩] 0 false 1 =
      Except.error (BadByteCode.EnvOutOfRange 0 3 1) ∧
    ∀ (argc envLen : Nat) (b : Bytecode) (rest : List Bytecode) (i depth e : Nat),
      (stackReads b).find? (fun x => decide (depth ≤ x)) = none →
      (argReads b).find? (fun x => decide (argc ≤ x)) = none →
      (envReads b).find? (fun x => decide (envLen ≤ x)) = some e →
      verifyFrom argc envLen (b :: rest) i depth =
        Except.error (BadByteCode.EnvOutOfRange i (e + 1) envLen) := by
  constructor
  · rfl
  · intro argc envLen b rest i depth e h1 h2 h3
    unfold verifyFrom checkInstr
    rw [h1, h2, h3]

/-- C3 witness: a `LoadEnvironment` of slot 5 against environment length 2,
at instruction position 3, fails with EnvOutOfRange{3, 6, 2}. -/
theorem C3_witness :
    verifyFrom 0 2 [⟨Opcode.LoadEnvironment, 5, 0, 0⟩] 3 0 =
      Except.error (BadByteCode.EnvOutOfRange 3 6 2) :=
  C3_env_out_of_range.2 0 2 ⟨Opcode.LoadEnvironment, 5, 0, 0⟩ [] 3 0 5 rfl rfl rfl

/-- C1: evaluation of the source bounds check at the inputs that refute the
claim.  For a plain vector of recorded length 1 (header word 1) the
in-range index 0 fails with the index-out-of-bounds error for both
`array_get` and `array_set`, while the out-of-range index 2 succeeds; for a
record (header tag 0b001) the in-range index 2 fails with the special
non-record error.  The source guard is `header >= index`, the reverse of
the claimed `index < length`, and it compares against the whole header word
with the record tag bits included. -/
theorem C1_bounds_check_inverted :
    Value.array_get (fun a => if a = 0 then 1 else 0) ⟨3⟩ 0 =
      some (Except.error ArrayError.indexOutOfBounds) ∧
    Value.array_set (fun a => if a = 0 then 1 else 0) ⟨3⟩ 0 ⟨0⟩ =
      some (Except.error ArrayError.indexOutOfBounds) ∧
    Value.array_get (fun a => if a = 0 then 1 else 0) ⟨3⟩ 2 =
      some (Except.ok 2) ∧
    Value.array_get (fun a => if a = 0 then (1 <<< 61) ||| 5 else 0) ⟨3⟩ 2 =
      some (Except.error ArrayError.nonRecord) := by
  refine ⟨rfl, rfl, rfl, rfl⟩

/-- C4: evaluation of `allocate_bytecode` at one code byte.  The recorded
length is 1 and the code byte is copied verbatim to offset 24 with the
stack updated as claimed, but the popped constants reference is written at
byte offset 16 — the third word of the `BCO` struct, which lies before the
code region — and not into the word immediately following the word-padded
code region, which is byte offset 32 here. -/
theorem C4_constants_written_before_code :
    allocate_bytecode [171] ⟨[⟨100⟩]⟩ 0 =
      some ⟨4, 1, 8, ⟨100⟩, 16, 24, [171], [⟨5⟩]⟩ ∧
    2 * SIZEOF_PTR < SIZEOF_BCO ∧
    word_after_code SIZEOF_BCO 1 = 32 := by
  refine ⟨rfl, by decide, rfl⟩

/-- Clearing the low three bits of a machine word rounds it down to a
multiple of 8. -/
theorem ptr_mask (x : Nat) (hx : x < 2 ^ 64) : x &&& (2 ^ 64 - 8) = 8 * (x / 8) := by
  have hmask : (2 ^ 64 - 8 : Nat) = (2 ^ 61 - 1) <<< 3 := by
    rw [Nat.shiftLeft_eq]
    norm_num
  have hdiv : 8 * (x / 8) = (x >>> 3) <<< 3 := by
    rw [Nat.shiftRight_eq_div_pow, Nat.shiftLeft_eq]
    norm_num
    omega
  rw [hmask, hdiv]
  apply Nat.eq_of_testBit_eq
  intro i
  rw [Nat.testBit_and, Nat.testBit_shiftLeft, Nat.testBit_shiftLeft,
    Nat.testBit_shiftRight, Nat.testBit_two_pow_sub_one]
  rcases Nat.lt_or_ge i 3 with h3 | h3
  · have hd : ¬ 3 ≤ i := by omega
    simp [hd]
  · have hi : 3 + (i - 3) = i := by omega
    rcases Nat.lt_or_ge i 64 with h64 | h64
    · have h61 : i - 3 < 61 := by omega
      simp [h3, h61, hi]
    · have hbit : x.testBit i = false :=
        Nat.testBit_lt_two_pow (lt_of_lt_of_le hx (Nat.pow_le_pow_right (by norm_num) h64))
      have h61 : ¬ (i - 3 < 61) := by omega
      simp [h3, h61, hi, hbit]

/-- The pointer of a tagged pair value: or-ing in the tag and masking it
away are inverse on an aligned address. -/
theorem pair_ptr (p : Nat) (hp : p % 8 = 0) (hlt : p < 2 ^ 64) :
    Ptr_Val (pairValue p) = p := by
  unfold Ptr_Val pairValue PAIR_TAG
  show (p ||| 7) &&& (2 ^ 64 - 8) = p
  rw [Nat.and_distrib_right]
  have h7 : (7 : Nat) &&& (2 ^ 64 - 8) = 0 := by decide
  rw [h7, Nat.or_zero]
  rw [ptr_mask p hlt]
  omega

/-- The tag of a pair value built from an aligned address is `Pair`. -/
theorem pair_tag (p : Nat) (hp : p % 8 = 0) : (pairValue p).tag = Tags.Pair := by
  have h : (pairValue p).raw_tag = 7 := by
    unfold pairValue Value.raw_tag Value.get PAIR_TAG
    show (p ||| 7) &&& 7 = 7
    rw [Nat.and_distrib_right, and_seven_eq_mod, hp]
    rfl
  unfold Value.tag
  rw [h]

/-- The kind of a pair value built from an aligned machine-word address. -/
theorem pair_kind (p : Nat) (hp : p % 8 = 0) (hlt : p < 2 ^ 64) :
    (pairValue p).kind = some (Kind.Pair p) := by
  unfold Value.kind
  rw [pair_tag p hp]
  rw [pair_ptr p hp hlt]

/-- C7: for a freshly built pair from `a` and `b`, `car` returns `a` and
`cdr` returns `b`; and for every pair and value `c`, after `set_car(c)`
succeeds, `car` returns `c` while `cdr` returns what it returned before,
and symmetrically for `set_cdr`. -/
theorem C7_pair_slots (p : Nat) (a b : Value) (hp : p % 8 = 0) (hlt : p < 2 ^ 64) :
    (Value.car (mkPairMem p a b) (pairValue p) = some (Except.ok a) ∧
     Value.cdr (mkPairMem p a b) (pairValue p) = some (Except.ok b)) ∧
    (∀ (mem : Mem) (v c : Value) (mem2 : Mem),
      Value.set_car mem v c = some (Except.ok mem2) →
      Value.car mem2 v = some (Except.ok c) ∧ Value.cdr mem2 v = Value.cdr mem v) ∧
    (∀ (mem : Mem) (v c : Value) (mem2 : Mem),
      Value.set_cdr mem v c = some (Except.ok mem2) →
      Value.cdr mem2 v = some (Except.ok c) ∧ Value.car mem2 v = Value.car mem v) := by
  refine ⟨⟨?_, ?_⟩, ?_, ?_⟩
  · unfold Value.car
    rw [pair_kind p hp hlt]
    have h1 : mkPairMem p a b (p + SIZEOF_PTR) = a.contents := by
      unfold mkPairMem SIZEOF_PTR
      have hne : p + 8 ≠ p := by omega
      rw [if_neg hne, if_pos rfl]
    show some (Except.ok (⟨mkPairMem p a b (p + SIZEOF_PTR)⟩ : Value)) = some (Except.ok a)
    rw [h1]
  · unfold Value.cdr
    rw [pair_kind p hp hlt]
    have h1 : mkPairMem p a b (p + 2 * SIZEOF_PTR) = b.contents := by
      unfold mkPairMem SIZEOF_PTR
      have hne1 : p + 2 * 8 ≠ p := by omega
      have hne2 : p + 2 * 8 ≠ p + 8 := by omega
      rw [if_neg hne1, if_neg hne2, if_pos rfl]
    show some (Except.ok (⟨mkPairMem p a b (p + 2 * SIZEOF_PTR)⟩ : Value)) = some (Except.ok b)
    rw [h1]
  · intro mem v c mem2 h
    unfold Value.set_car at h
    cases hk : v.kind with
    | none => rw [hk] at h; cases h
    | some k =>
      cases k with
      | Vector q => rw [hk] at h; simp at h
      | Fixnum q => rw [hk] at h; simp at h
      | Pair q =>
        rw [hk] at h
        simp only [Option.some.injEq, Except.ok.injEq] at h
        constructor
        · unfold Value.car
          rw [hk, ← h]
          simp
        · unfold Value.cdr
          rw [hk, ← h]
          have hne : q + 2 * SIZEOF_PTR ≠ q + SIZEOF_PTR := by
            unfold SIZEOF_PTR
            omega
          simp [hne]
  · intro mem v c mem2 h
    unfold Value.set_cdr at h
    cases hk : v.kind with
    | none => rw [hk] at h; cases h
    | some k =>
      cases k with
      | Vector q => rw [hk] at h; simp at h
      | Fixnum q => rw [hk] at h; simp at h
      | Pair q =>
        rw [hk] at h
        simp only [Option.some.injEq, Except.ok.injEq] at h
        constructor
        · unfold Value.cdr
          rw [hk, ← h]
          simp
        · unfold Value.car
          rw [hk, ← h]
          have hne : q + SIZEOF_PTR ≠ q + 2 * SIZEOF_PTR := by
            unfold SIZEOF_PTR
            omega
          simp [hne]

/-- C7 witness: a concrete pair at address 8 holding 0 and 4; reading back
the fresh slots, and reading car after a concrete successful `set_car`. -/
theorem C7_witness :
    Value.car (mkPairMem 8 ⟨0⟩ ⟨4⟩) (pairValue 8) = some (Except.ok ⟨0⟩) ∧
    Value.cdr (mkPairMem 8 ⟨0⟩ ⟨4⟩) (pairValue 8) = some (Except.ok ⟨4⟩) ∧
    Value.car (fun a => if a = 16 then 12 else mkPairMem 8 ⟨0⟩ ⟨4⟩ a) (pairValue 8) =
      some (Except.ok ⟨12⟩) :=
  ⟨(C7_pair_slots 8 ⟨0⟩ ⟨4⟩ rfl (by norm_num)).1.1,
   (C7_pair_slots 8 ⟨0⟩ ⟨4⟩ rfl (by norm_num)).1.2,
   ((C7_pair_slots 8 ⟨0⟩ ⟨4⟩ rfl (by norm_num)).2.1 (mkPairMem 8 ⟨0⟩ ⟨4⟩) (pairValue 8) ⟨12⟩
     (fun a => if a = 16 then 12 else mkPairMem 8 ⟨0⟩ ⟨4⟩ a) rfl).1⟩

/-- C6 counterexample: the symbol-tagged word 0b110 is not a pair, yet
`car`, `cdr`, `set_car` and `set_cdr` on it do not return the explicit
wrong-type error: `kind()` hits `unimplemented!()` and panics (modelled as
`none`). -/
theorem C6_counterexample :
    Value.tag ⟨6⟩ ≠ Tags.Pair ∧
    Value.car (fun _ => 0) ⟨6⟩ = none ∧
    Value.cdr (fun _ => 0) ⟨6⟩ = none ∧
    Value.set_car (fun _ => 0) ⟨6⟩ ⟨0⟩ = none ∧
    Value.set_cdr (fun _ => 0) ⟨6⟩ ⟨0⟩ = none := by
  exact ⟨by decide, rfl, rfl, rfl, rfl⟩

/-- C6 amended: `car`/`cdr`/`set_car`/`set_cdr` return the explicit
wrong-type error exactly for the non-pair kinds `kind()` implements (the
two fixnum tags and the vector tag); for the four remaining non-pair tags
(`RustFunc`, `Function`, `RustData`, `Symbol`) the accessors panic in
`kind()` instead of returning an error; and all four succeed on every
pair-kind value. -/
theorem C6_wrongtype (mem : Mem) (v : Value) :
    (v.tag = Tags.Num ∨ v.tag = Tags.Num2 ∨ v.tag = Tags.Vector →
      v.car mem = some (Except.error ()) ∧ v.cdr mem = some (Except.error ()) ∧
      ∀ c, v.set_car mem c = some (Except.error ()) ∧
           v.set_cdr mem c = some (Except.error ())) ∧
    (v.tag = Tags.RustFunc ∨ v.tag = Tags.Function ∨ v.tag = Tags.RustData ∨
        v.tag = Tags.Symbol →
      v.car mem = none ∧ v.cdr mem = none ∧
      ∀ c, v.set_car mem c = none ∧ v.set_cdr mem c = none) ∧
    (v.tag = Tags.Pair →
      (∃ x, v.car mem = some (Except.ok x)) ∧ (∃ x, v.cdr mem = some (Except.ok x)) ∧
      ∀ c, (∃ m2, v.set_car mem c = some (Except.ok m2)) ∧
           (∃ m2, v.set_cdr mem c = some (Except.ok m2))) := by
  refine ⟨?_, ?_, ?_⟩
  · intro ht
    rcases ht with ht | ht | ht <;>
      simp [Value.car, Value.cdr, Value.set_car, Value.set_cdr, Value.kind, ht]
  · intro ht
    rcases ht with ht | ht | ht | ht <;>
      simp [Value.car, Value.cdr, Value.set_car, Value.set_cdr, Value.kind, ht]
  · intro ht
    simp [Value.car, Value.cdr, Value.set_car, Value.set_cdr, Value.kind, ht]

/-- C6 witness: on the fixnum-tagged word 0, all four accessors return the
explicit error, and on a pair they succeed. -/
theorem C6_witness :
    Value.car (fun _ => 0) ⟨0⟩ = some (Except.error ()) ∧
    Value.cdr (fun _ => 0) ⟨0⟩ = some (Except.error ()) ∧
    Value.set_car (fun _ => 0) ⟨0⟩ ⟨7⟩ = some (Except.error ()) ∧
    Value.set_cdr (fun _ => 0) ⟨0⟩ ⟨7⟩ = some (Except.error ()) :=
  ⟨((C6_wrongtype (fun _ => 0) ⟨0⟩).1 (Or.inl rfl)).1,
   ((C6_wrongtype (fun _ => 0) ⟨0⟩).1 (Or.inl rfl)).2.1,
   (((C6_wrongtype (fun _ => 0) ⟨0⟩).1 (Or.inl rfl)).2.2 ⟨7⟩).1,
   (((C6_wrongtype (fun _ => 0) ⟨0⟩).1 (Or.inl rfl)).2.2 ⟨7⟩).2⟩
